import Mathlib

/-!
Shallow embedding of the quantum-CA simulation core (complex arithmetic,
Pauli-basis operators, quantum and classical step engines, the fitness
evaluator and the genetic search driver) together with theorems settling
the specification claims about it.  Grids are modelled as total functions
from coordinates to cell values; the simulation only ever reads them at
indices reduced modulo the grid dimensions, exactly as the source does.
-/

namespace QCA

/-- Complex number as stored by the simulation: a pair of real parts. -/
@[ext] structure Complex where
  re : ℝ
  im : ℝ

/-- Complex addition, from the source helper cadd. -/
def cadd (a b : Complex) : Complex := ⟨a.re + b.re, a.im + b.im⟩

/-- Complex multiplication, from the source helper cmul. -/
def cmul (a b : Complex) : Complex :=
  ⟨a.re * b.re - a.im * b.im, a.re * b.im + a.im * b.re⟩

/-- A qubit state is the ordered pair of amplitudes for basis 0 and basis 1. -/
abbrev QubitState := Complex × Complex

/-- A 2 x 2 complex matrix, stored as two rows of two entries. -/
abbrev Mat2 := (Complex × Complex) × (Complex × Complex)

/-- Standard complex 2 x 2 matrix-vector product, from the source applyMatrix. -/
def applyMatrix (mat : Mat2) (q : QubitState) : QubitState :=
  ⟨cadd (cmul mat.1.1 q.1) (cmul mat.1.2 q.2),
   cadd (cmul mat.2.1 q.1) (cmul mat.2.2 q.2)⟩

/-- Squared magnitude of a qubit state, the magSq value of normalizeQubit. -/
def qubitMagSq (q : QubitState) : ℝ :=
  q.1.re * q.1.re + q.1.im * q.1.im + q.2.re * q.2.re + q.2.im * q.2.im

/-- normalizeQubit from the source: near-zero vectors collapse to the basis
zero state, anything else is divided by the square root of its magnitude. -/
noncomputable def normalizeQubit (q : QubitState) : QubitState :=
  if qubitMagSq q < 1e-12 then ⟨⟨1, 0⟩, ⟨0, 0⟩⟩
  else
    let mag := Real.sqrt (qubitMagSq q)
    ⟨⟨q.1.re / mag, q.1.im / mag⟩, ⟨q.2.re / mag, q.2.im / mag⟩⟩

/-- Pauli matrix I from the source. -/
def pauliI : Mat2 := ⟨⟨⟨1, 0⟩, ⟨0, 0⟩⟩, ⟨⟨0, 0⟩, ⟨1, 0⟩⟩⟩

/-- Pauli matrix X from the source. -/
def pauliX : Mat2 := ⟨⟨⟨0, 0⟩, ⟨1, 0⟩⟩, ⟨⟨1, 0⟩, ⟨0, 0⟩⟩⟩

/-- Pauli matrix Y from the source. -/
def pauliY : Mat2 := ⟨⟨⟨0, 0⟩, ⟨0, -1⟩⟩, ⟨⟨0, 1⟩, ⟨0, 0⟩⟩⟩

/-- Pauli matrix Z from the source. -/
def pauliZ : Mat2 := ⟨⟨⟨1, 0⟩, ⟨0, 0⟩⟩, ⟨⟨0, 0⟩, ⟨-1, 0⟩⟩⟩

/-- scaleMatrix from the source: multiply every entry by a complex scalar. -/
def scaleMatrix (mat : Mat2) (s : Complex) : Mat2 :=
  ⟨⟨cmul mat.1.1 s, cmul mat.1.2 s⟩, ⟨cmul mat.2.1 s, cmul mat.2.2 s⟩⟩

/-- addMatrices from the source: entrywise sum of two matrices. -/
def addMatrices (m1 m2 : Mat2) : Mat2 :=
  ⟨⟨cadd m1.1.1 m2.1.1, cadd m1.1.2 m2.1.2⟩,
   ⟨cadd m1.2.1 m2.2.1, cadd m1.2.2 m2.2.2⟩⟩

/-- The four named complex coefficients of an operator in the Pauli basis. -/
@[ext] structure PauliCoefficients where
  cI : Complex
  cX : Complex
  cY : Complex
  cZ : Complex

/-- constructMatrix from the source: cI*I + cX*X + cY*Y + cZ*Z. -/
def constructMatrix (coeffs : PauliCoefficients) : Mat2 :=
  addMatrices
    (addMatrices
      (addMatrices (scaleMatrix pauliI coeffs.cI) (scaleMatrix pauliX coeffs.cX))
      (scaleMatrix pauliY coeffs.cY))
    (scaleMatrix pauliZ coeffs.cZ)

/-- Simulation parameters: decoherence weight and two Pauli-coefficient sets. -/
@[ext] structure SimulationParameters where
  gamma : ℝ
  w_self : PauliCoefficients
  w_neighbor : PauliCoefficients

/-- The default parameters of the application: gamma 1, identity self
operator, zero neighbor operator. -/
def DEFAULT_PARAMETERS : SimulationParameters :=
  { gamma := 1
    w_self := ⟨⟨1, 0⟩, ⟨0, 0⟩, ⟨0, 0⟩, ⟨0, 0⟩⟩
    w_neighbor := ⟨⟨0, 0⟩, ⟨0, 0⟩, ⟨0, 0⟩, ⟨0, 0⟩⟩ }

/-- getClassicalState from the source: threshold the basis-1 probability. -/
noncomputable def getClassicalState (q : QubitState) : ℕ :=
  if (0.5 : ℝ) ≤ q.2.re * q.2.re + q.2.im * q.2.im then 1 else 0

/-- A quantum grid, read at toroidally reduced coordinates. -/
abbrev GridFn := ℕ → ℕ → QubitState

/-- A classical grid, read at toroidally reduced coordinates. -/
abbrev ClassicalGridFn := ℕ → ℕ → ℕ

/-- The toroidal index reduction (y + i + n) % n used by both step engines. -/
def torus (n : ℕ) (a : ℤ) : ℕ := ((a + n) % (n : ℤ)).toNat

/-- The eight neighbor offsets, in the iteration order of the source loops. -/
def neighborOffsets : List (ℤ × ℤ) :=
  [(-1, -1), (-1, 0), (-1, 1), (0, -1), (0, 1), (1, -1), (1, 0), (1, 1)]

/-- Componentwise sum of the eight toroidally wrapped neighbor states. -/
def sumNeighborStates (H W : ℕ) (g : GridFn) (y x : ℕ) : QubitState :=
  neighborOffsets.foldl
    (fun acc ij =>
      let nq := g (torus H ((y : ℤ) + ij.1)) (torus W ((x : ℤ) + ij.2))
      ⟨cadd acc.1 nq.1, cadd acc.2 nq.2⟩)
    ⟨⟨0, 0⟩, ⟨0, 0⟩⟩

/-- Stage A of performQuantumStep at one cell: self term plus neighbor term,
then normalized. -/
noncomputable def coherentlyEvolvedCell (H W : ℕ) (g : GridFn)
    (params : SimulationParameters) (y x : ℕ) : QubitState :=
  let selfTerm := applyMatrix (constructMatrix params.w_self) (g y x)
  let neighborTerm :=
    applyMatrix (constructMatrix params.w_neighbor) (sumNeighborStates H W g y x)
  normalizeQubit ⟨cadd selfTerm.1 neighborTerm.1, cadd selfTerm.2 neighborTerm.2⟩

/-- Stage B of performQuantumStep at one cell: decoherence toward the
classical attractor followed by the real-valued re-encoding. -/
noncomputable def decohereCell (gamma : ℝ) (q : QubitState) : QubitState :=
  let pQuantum := q.2.re * q.2.re + q.2.im * q.2.im
  let classicalAttractor : ℝ := if (0.5 : ℝ) ≤ pQuantum then 1 else 0
  let pFinal := (1 - gamma) * pQuantum + gamma * classicalAttractor
  let prob := max 0 (min 1 pFinal)
  ⟨⟨Real.sqrt (1 - prob), 0⟩, ⟨Real.sqrt prob, 0⟩⟩

/-- performQuantumStep from the source, with the grid dimensions (taken from
the array lengths in the source) passed explicitly. -/
noncomputable def performQuantumStep (H W : ℕ) (g : GridFn)
    (params : SimulationParameters) : GridFn :=
  fun y x => decohereCell params.gamma (coherentlyEvolvedCell H W g params y x)

/-- performGOLStep from the source: standard Game of Life on a torus. -/
def performGOLStep (H W : ℕ) (grid : ClassicalGridFn) : ClassicalGridFn :=
  fun y x =>
    let neighborCount :=
      neighborOffsets.foldl
        (fun acc ij => acc + grid (torus H ((y : ℤ) + ij.1)) (torus W ((x : ℤ) + ij.2)))
        0
    let cell := grid y x
    if cell = 1 ∧ (neighborCount = 2 ∨ neighborCount = 3) then 1
    else if cell = 0 ∧ neighborCount = 3 then 1
    else 0

/-- Toroidal translation of a grid by (dy, dx). -/
def translateGrid {α : Type} (H W dy dx : ℕ) (g : ℕ → ℕ → α) : ℕ → ℕ → α :=
  fun y x => g ((y + dy) % H) ((x + dx) % W)

/-- GA population size from the source constants. -/
def POPULATION_SIZE : ℕ := 50

/-- Mutation probability per coefficient part from the source constants. -/
def MUTATION_RATE : ℝ := 0.1

/-- Mutation amplitude from the source constants. -/
def MUTATION_AMOUNT : ℝ := 0.1

/-- Crossover probability from the source constants. -/
def CROSSOVER_RATE : ℝ := 0.7

/-- Number of elite individuals kept unchanged, from the source constants. -/
def ELITISM_COUNT : ℕ := 2

/-- Number of fitness simulation steps from the source constants. -/
def FITNESS_SIM_STEPS : ℕ := 15

/-- Side length of the fitness grid from the source constants. -/
def FITNESS_GRID_SIZE : ℕ := 32

/-- Weight of the population error term from the source constants. -/
def POPULATION_PENALTY_WEIGHT : ℝ := 1.5

/-- Weight of the dynamism error term from the source constants. -/
def DYNAMISM_ERROR_WEIGHT : ℝ := 1.0

/-- Fitness bonus multiplier for non-stagnant candidates. -/
def DYNAMISM_BONUS_MULTIPLIER : ℝ := 1.5

/-- Number of trailing zero-flip steps that count as stagnation. -/
def STAGNATION_CHECK_LENGTH : ℕ := 4

/-- Probability of keeping the tournament loser, from the source constants. -/
def SELECTION_NOISE_PROBABILITY : ℝ := 0.1

/-- One recorded step of the ground-truth trajectory. -/
structure TrajectoryStep where
  grid : ClassicalGridFn
  population : ℕ
  flipsSincePrevStep : ℕ

/-- Placeholder trajectory step used to totalize out-of-range list reads. -/
def defaultTrajectoryStep : TrajectoryStep := ⟨fun _ _ => 0, 0, 0⟩

/-- createQubitGridFromClassical from the source: alive cells become the
basis-1 state, everything else the basis-0 state. -/
def createQubitGridFromClassical (classical : ClassicalGridFn) : GridFn :=
  fun y x => if classical y x = 1 then ⟨⟨0, 0⟩, ⟨1, 0⟩⟩ else ⟨⟨1, 0⟩, ⟨0, 0⟩⟩

/-- The running accumulators of the fitness evaluation loop. -/
structure FitAccum where
  quantumGrid : GridFn
  prevClassicalGrid : ClassicalGridFn
  mismatchError : ℕ
  populationError : ℕ
  dynamismError : ℕ
  dynamismHistory : List ℕ

/-- One iteration of the fitness simulation loop of calculateFitness. -/
noncomputable def fitnessStep (traj : List TrajectoryStep)
    (params : SimulationParameters) (s : FitAccum) (_step : ℕ) : FitAccum :=
  let quantumGrid :=
    performQuantumStep FITNESS_GRID_SIZE FITNESS_GRID_SIZE s.quantumGrid
      { params with gamma := 1 }
  let candidateClassicalGrid : ClassicalGridFn :=
    fun y x => getClassicalState (quantumGrid y x)
  let groundTruthStep := traj.getD (_step + 1) defaultTrajectoryStep
  let candidateFlips :=
    ∑ y ∈ Finset.range FITNESS_GRID_SIZE, ∑ x ∈ Finset.range FITNESS_GRID_SIZE,
      (if candidateClassicalGrid y x = s.prevClassicalGrid y x then 0 else 1)
  { quantumGrid := quantumGrid
    prevClassicalGrid := candidateClassicalGrid
    mismatchError := s.mismatchError +
      ∑ y ∈ Finset.range FITNESS_GRID_SIZE, ∑ x ∈ Finset.range FITNESS_GRID_SIZE,
        Nat.dist (candidateClassicalGrid y x) (groundTruthStep.grid y x)
    populationError := s.populationError +
      Nat.dist
        (∑ y ∈ Finset.range FITNESS_GRID_SIZE, ∑ x ∈ Finset.range FITNESS_GRID_SIZE,
          candidateClassicalGrid y x)
        groundTruthStep.population
    dynamismError := s.dynamismError +
      Nat.dist candidateFlips groundTruthStep.flipsSincePrevStep
    dynamismHistory := s.dynamismHistory ++ [candidateFlips] }

/-- The final scoring step of calculateFitness: weighted total error,
reciprocal fitness, and the dynamism bonus for non-stagnant candidates. -/
noncomputable def fitnessFromAccum (s : FitAccum) : ℝ :=
  let totalError : ℝ := (s.mismatchError : ℝ)
    + (s.populationError : ℝ) * POPULATION_PENALTY_WEIGHT
    + (s.dynamismError : ℝ) * DYNAMISM_ERROR_WEIGHT
  let fitness := 1 / (1 + totalError)
  let lastSlice :=
    s.dynamismHistory.drop (s.dynamismHistory.length - STAGNATION_CHECK_LENGTH)
  if STAGNATION_CHECK_LENGTH ≤ s.dynamismHistory.length ∧ ∀ f ∈ lastSlice, f = 0 then
    fitness
  else fitness * DYNAMISM_BONUS_MULTIPLIER

/-- calculateFitness from the source: replay the candidate parameters from
the first ground-truth grid and score the resulting trajectory. -/
noncomputable def calculateFitness (traj : List TrajectoryStep)
    (params : SimulationParameters) : ℝ :=
  if traj.length = 0 then 0
  else
    let initialGrid := (traj.getD 0 defaultTrajectoryStep).grid
    let start : FitAccum :=
      { quantumGrid := createQubitGridFromClassical initialGrid
        prevClassicalGrid := initialGrid
        mismatchError := 0
        populationError := 0
        dynamismError := 0
        dynamismHistory := [] }
    fitnessFromAccum ((List.range FITNESS_SIM_STEPS).foldl (fitnessStep traj params) start)

/-- The mutable state of the genetic search driver. -/
structure GAState where
  generation : ℕ
  bestFitness : ℝ
  bestParams : Option SimulationParameters
  population : List SimulationParameters
  isSearching : Bool

/-- The stream of pseudo-random draws consumed by one generation. -/
abbrev RandomStream := ℕ → ℝ

/-- Tournament selection from the source selectParent: draw two random
contestants, keep the winner except with small probability the loser. -/
noncomputable def selectParent (fitnessScores : List (SimulationParameters × ℝ))
    (rand : RandomStream) (k : ℕ) : SimulationParameters × ℕ :=
  let c1 := fitnessScores.getD (⌊rand k * fitnessScores.length⌋).toNat
    (DEFAULT_PARAMETERS, 0)
  let c2 := fitnessScores.getD (⌊rand (k + 1) * fitnessScores.length⌋).toNat
    (DEFAULT_PARAMETERS, 0)
  let wl := if c2.2 < c1.2 then (c1, c2) else (c2, c1)
  if rand (k + 2) < SELECTION_NOISE_PROBABILITY then (wl.2.1, k + 3)
  else (wl.1.1, k + 3)

/-- crossoverCoefficients from the source: each coefficient slot copied
wholesale from one parent or the other. -/
noncomputable def crossoverCoefficients (p1 p2 : PauliCoefficients)
    (rand : RandomStream) (k : ℕ) : PauliCoefficients :=
  { cI := if rand k < 0.5 then p1.cI else p2.cI
    cX := if rand (k + 1) < 0.5 then p1.cX else p2.cX
    cY := if rand (k + 2) < 0.5 then p1.cY else p2.cY
    cZ := if rand (k + 3) < 0.5 then p1.cZ else p2.cZ }

/-- crossover from the source: gamma forced to 1, both operators crossed. -/
noncomputable def crossover (parent1 parent2 : SimulationParameters)
    (rand : RandomStream) (k : ℕ) : SimulationParameters :=
  { gamma := 1
    w_self := crossoverCoefficients parent1.w_self parent2.w_self rand k
    w_neighbor := crossoverCoefficients parent1.w_neighbor parent2.w_neighbor rand (k + 4) }

/-- mutateComplex from the source, threading the index of the next random
draw (the perturbation draw happens only when the rate draw fires). -/
noncomputable def mutateComplex (c : Complex) (rand : RandomStream) (k : ℕ) :
    Complex × ℕ :=
  let stepRe : ℝ × ℕ :=
    if rand k < MUTATION_RATE then
      (c.re + (rand (k + 1) - 0.5) * 2 * MUTATION_AMOUNT, k + 2)
    else (c.re, k + 1)
  let stepIm : ℝ × ℕ :=
    if rand stepRe.2 < MUTATION_RATE then
      (c.im + (rand (stepRe.2 + 1) - 0.5) * 2 * MUTATION_AMOUNT, stepRe.2 + 2)
    else (c.im, stepRe.2 + 1)
  (⟨stepRe.1, stepIm.1⟩, stepIm.2)

/-- mutateCoefficients from the source: mutate all four coefficients. -/
noncomputable def mutateCoefficients (coeffs : PauliCoefficients)
    (rand : RandomStream) (k : ℕ) : PauliCoefficients × ℕ :=
  let rI := mutateComplex coeffs.cI rand k
  let rX := mutateComplex coeffs.cX rand rI.2
  let rY := mutateComplex coeffs.cY rand rX.2
  let rZ := mutateComplex coeffs.cZ rand rY.2
  (⟨rI.1, rX.1, rY.1, rZ.1⟩, rZ.2)

/-- mutate from the source: gamma forced to 1, both operators mutated. -/
noncomputable def mutate (params : SimulationParameters) (rand : RandomStream)
    (k : ℕ) : SimulationParameters × ℕ :=
  let rs := mutateCoefficients params.w_self rand k
  let rn := mutateCoefficients params.w_neighbor rand rs.2
  ({ gamma := 1, w_self := rs.1, w_neighbor := rn.1 }, rn.2)

/-- The offspring loop of runGeneration: fill the population up to its fixed
size by selection, optional crossover, and mutation.  The fuel argument
bounds the loop; every iteration below the size bound appends exactly one
child, as in the source while loop. -/
noncomputable def buildPopulation (fuel : ℕ)
    (fitnessScores : List (SimulationParameters × ℝ)) (rand : RandomStream)
    (acc : List SimulationParameters) (k : ℕ) : List SimulationParameters :=
  match fuel with
  | 0 => acc
  | fuel + 1 =>
    if acc.length < POPULATION_SIZE then
      let r1 := selectParent fitnessScores rand k
      let r2 := selectParent fitnessScores rand r1.2
      let rc : SimulationParameters × ℕ :=
        if rand r2.2 < CROSSOVER_RATE then
          (crossover r1.1 r2.1 rand (r2.2 + 1), r2.2 + 9)
        else (r1.1, r2.2 + 1)
      let rm := mutate rc.1 rand rc.2
      buildPopulation fuel fitnessScores rand (acc ++ [rm.1]) rm.2
    else acc

/-- runGeneration from the source: bump the generation counter, score and
sort the population, update the best-so-far report, stop when converged,
otherwise breed the next population from elites and offspring. -/
noncomputable def runGeneration (traj : List TrajectoryStep)
    (rand : RandomStream) (st : GAState) : GAState :=
  let generation := st.generation + 1
  let fitnessScores :=
    (st.population.map (fun p => (p, calculateFitness traj p))).mergeSort
      (fun a b => decide (b.2 ≤ a.2))
  let bestIndividual := fitnessScores.headD (DEFAULT_PARAMETERS, 0)
  let currentBestFitness : ℝ :=
    match st.bestParams with
    | some _ => st.bestFitness
    | none => -1
  let updated : Option SimulationParameters × ℝ :=
    if currentBestFitness + 1e-9 < bestIndividual.2 then
      (some bestIndividual.1, bestIndividual.2)
    else (st.bestParams, st.bestFitness)
  if (1.49 : ℝ) < bestIndividual.2 then
    { generation := generation
      bestFitness := updated.2
      bestParams := updated.1
      population := st.population
      isSearching := false }
  else
    { generation := generation
      bestFitness := updated.2
      bestParams := updated.1
      population :=
        buildPopulation POPULATION_SIZE fitnessScores rand
          ((fitnessScores.take ELITISM_COUNT).map Prod.fst) 0
      isSearching := st.isSearching }

/-- The state after n completed generations of a search run: n calls of
runGeneration from the initialized state, each consuming its own stream of
random draws. -/
noncomputable def gaRun (traj : List TrajectoryStep) (rands : ℕ → RandomStream)
    (init : GAState) : ℕ → GAState
  | 0 => init
  | n + 1 => runGeneration traj (rands n) (gaRun traj rands init n)

/-- Side length of the reversible-lab grids from the source constants. -/
def GRID_SIZE : ℕ := 32

/-- The two registers of the reversible-computation demo. -/
structure ReversibleState where
  systemGrid : ClassicalGridFn
  targetGrid : ClassicalGridFn

/-- Total number of live cells of a reversible-lab grid. -/
def gridPopulation (g : ClassicalGridFn) : ℕ :=
  ∑ y ∈ Finset.range GRID_SIZE, ∑ x ∈ Finset.range GRID_SIZE, g y x

/-- advanceCycle from the source: XOR the preview into the clean target and
swap the registers, or fail without mutating anything. -/
def advanceCycle (st : ReversibleState) : Bool × ReversibleState :=
  if gridPopulation st.targetGrid = 0 then
    let update := performGOLStep GRID_SIZE GRID_SIZE st.systemGrid
    let newTarget : ClassicalGridFn := fun y x => st.targetGrid y x ^^^ update y x
    (true, { systemGrid := newTarget, targetGrid := st.systemGrid })
  else (false, st)

/-- A 32 x 32 grid that is all zero except a horizontal blinker in its top
row; every other single-blinker grid is a toroidal translation of it. -/
def blinkerGrid : ClassicalGridFn :=
  fun y x => if y = 0 ∧ (x = 0 ∨ x = 1 ∨ x = 2) then 1 else 0

/-- Claim C1: every output cell of performQuantumStep is the real-valued
pair (sqrt (1 - pFinal), 0), (sqrt pFinal, 0), where p is the squared
magnitude of the beta amplitude of the normalized coherently evolved state,
the attractor is 1 when p is at least one half and 0 otherwise, and pFinal
clamps (1 - gamma) * p + gamma * attractor to the unit interval; in
particular both output amplitudes have zero imaginary part for every gamma,
including gamma = 0. -/
theorem claim_C1_decohered_output_form (H W : ℕ) (g : GridFn)
    (params : SimulationParameters) (y x : ℕ) :
    performQuantumStep H W g params y x =
      (let q := coherentlyEvolvedCell H W g params y x
       let p := q.2.re * q.2.re + q.2.im * q.2.im
       let attractor : ℝ := if (0.5 : ℝ) ≤ p then 1 else 0
       let pFinal := max 0 (min 1 ((1 - params.gamma) * p + params.gamma * attractor))
       (⟨Real.sqrt (1 - pFinal), 0⟩, ⟨Real.sqrt pFinal, 0⟩)) ∧
    (performQuantumStep H W g params y x).1.im = 0 ∧
    (performQuantumStep H W g params y x).2.im = 0 :=
  ⟨rfl, rfl, rfl⟩

/-- Claim C3: with an empty ground-truth trajectory, calculateFitness
returns exactly 0 for every candidate parameter set. -/
theorem claim_C3_empty_trajectory_fitness_zero (params : SimulationParameters) :
    calculateFitness [] params = 0 := by
  simp [calculateFitness]

/-- Claim C5: normalizeQubit collapses near-zero states to the canonical
basis-0 state exactly, and otherwise divides both components by the square
root of the squared magnitude, yielding squared norm exactly 1. -/
theorem claim_C5_normalize (q : QubitState) :
    (qubitMagSq q < 1e-12 → normalizeQubit q = (⟨1, 0⟩, ⟨0, 0⟩)) ∧
    (¬ qubitMagSq q < 1e-12 →
      normalizeQubit q =
        (⟨q.1.re / Real.sqrt (qubitMagSq q), q.1.im / Real.sqrt (qubitMagSq q)⟩,
         ⟨q.2.re / Real.sqrt (qubitMagSq q), q.2.im / Real.sqrt (qubitMagSq q)⟩) ∧
      qubitMagSq (normalizeQubit q) = 1) := by
  constructor
  · intro h
    simp [normalizeQubit, h]
  · intro h
    have hpos : (0 : ℝ) < qubitMagSq q :=
      lt_of_lt_of_le (by norm_num) (not_lt.mp h)
    have hs : Real.sqrt (qubitMagSq q) ≠ 0 :=
      (Real.sqrt_pos.mpr hpos).ne'
    have hss : Real.sqrt (qubitMagSq q) * Real.sqrt (qubitMagSq q) = qubitMagSq q :=
      Real.mul_self_sqrt hpos.le
    refine ⟨by simp [normalizeQubit, h], ?_⟩
    simp only [normalizeQubit, if_neg h]
    show (q.1.re / Real.sqrt (qubitMagSq q)) * (q.1.re / Real.sqrt (qubitMagSq q))
        + (q.1.im / Real.sqrt (qubitMagSq q)) * (q.1.im / Real.sqrt (qubitMagSq q))
        + (q.2.re / Real.sqrt (qubitMagSq q)) * (q.2.re / Real.sqrt (qubitMagSq q))
        + (q.2.im / Real.sqrt (qubitMagSq q)) * (q.2.im / Real.sqrt (qubitMagSq q)) = 1
    field_simp
    have hm : qubitMagSq q =
        q.1.re * q.1.re + q.1.im * q.1.im + q.2.re * q.2.re + q.2.im * q.2.im := rfl
    nlinarith [hss, hm]

/-- Witness for claim C5 at the concrete state ((3,0),(4,0)). -/
theorem claim_C5_normalize_witness :
    ¬ qubitMagSq (⟨⟨3, 0⟩, ⟨4, 0⟩⟩ : QubitState) < 1e-12 ∧
    qubitMagSq (normalizeQubit (⟨⟨3, 0⟩, ⟨4, 0⟩⟩ : QubitState)) = 1 := by
  have h : ¬ qubitMagSq (⟨⟨3, 0⟩, ⟨4, 0⟩⟩ : QubitState) < 1e-12 := by
    norm_num [qubitMagSq]
  exact ⟨h, ((claim_C5_normalize _).2 h).2⟩

/-- Claim C10: encoding a 0/1 classical grid as qubits with
createQubitGridFromClassical and thresholding each cell back with
getClassicalState is the identity on the grid. -/
theorem claim_C10_roundtrip (classical : ClassicalGridFn)
    (h01 : ∀ y x, classical y x = 0 ∨ classical y x = 1) (y x : ℕ) :
    getClassicalState (createQubitGridFromClassical classical y x) = classical y x := by
  rcases h01 y x with h | h <;>
    simp [createQubitGridFromClassical, getClassicalState, h] <;> norm_num

/-- Witness for claim C10 on the all-ones grid at cell (0, 0). -/
theorem claim_C10_roundtrip_witness :
    getClassicalState (createQubitGridFromClassical (fun _ _ => 1) 0 0) = 1 := by
  simpa using claim_C10_roundtrip (fun _ _ => 1) (fun _ _ => Or.inr rfl) 0 0

/-- Lower and upper bounds of the final fitness score: the weighted total
error is nonnegative, so the reciprocal lies in (0, 1] and the bonus keeps
it within (0, 1.5]. -/
theorem fitnessFromAccum_bounds (s : FitAccum) :
    0 < fitnessFromAccum s ∧ fitnessFromAccum s ≤ DYNAMISM_BONUS_MULTIPLIER := by
  have hE : (0 : ℝ) ≤ (s.mismatchError : ℝ)
      + (s.populationError : ℝ) * POPULATION_PENALTY_WEIGHT
      + (s.dynamismError : ℝ) * DYNAMISM_ERROR_WEIGHT := by
    unfold POPULATION_PENALTY_WEIGHT DYNAMISM_ERROR_WEIGHT
    positivity
  have h1 : (0 : ℝ) < 1 + ((s.mismatchError : ℝ)
      + (s.populationError : ℝ) * POPULATION_PENALTY_WEIGHT
      + (s.dynamismError : ℝ) * DYNAMISM_ERROR_WEIGHT) := by linarith
  have hpos : (0 : ℝ) < 1 / (1 + ((s.mismatchError : ℝ)
      + (s.populationError : ℝ) * POPULATION_PENALTY_WEIGHT
      + (s.dynamismError : ℝ) * DYNAMISM_ERROR_WEIGHT)) := by positivity
  have hle1 : 1 / (1 + ((s.mismatchError : ℝ)
      + (s.populationError : ℝ) * POPULATION_PENALTY_WEIGHT
      + (s.dynamismError : ℝ) * DYNAMISM_ERROR_WEIGHT)) ≤ 1 := by
    rw [div_le_one h1]; linarith
  have hb : (0 : ℝ) < DYNAMISM_BONUS_MULTIPLIER := by
    norm_num [DYNAMISM_BONUS_MULTIPLIER]
  have hb1 : (1 : ℝ) ≤ DYNAMISM_BONUS_MULTIPLIER := by
    norm_num [DYNAMISM_BONUS_MULTIPLIER]
  simp only [fitnessFromAccum]
  split_ifs with hstag
  · exact ⟨hpos, hle1.trans hb1⟩
  · constructor
    · exact mul_pos hpos hb
    · calc 1 / (1 + ((s.mismatchError : ℝ)
          + (s.populationError : ℝ) * POPULATION_PENALTY_WEIGHT
          + (s.dynamismError : ℝ) * DYNAMISM_ERROR_WEIGHT)) * DYNAMISM_BONUS_MULTIPLIER
          ≤ 1 * DYNAMISM_BONUS_MULTIPLIER := by
            exact mul_le_mul_of_nonneg_right hle1 hb.le
        _ = DYNAMISM_BONUS_MULTIPLIER := one_mul _

/-- Claim C2 (amended): for every candidate parameter set and every
nonempty ground-truth trajectory, calculateFitness is strictly positive
and at most the dynamism bonus multiplier 1.5. -/
theorem claim_C2_fitness_bounds (traj : List TrajectoryStep)
    (params : SimulationParameters) (h : traj ≠ []) :
    0 < calculateFitness traj params ∧
      calculateFitness traj params ≤ DYNAMISM_BONUS_MULTIPLIER := by
  have hlen : ¬ traj.length = 0 := by simpa using h
  simp only [calculateFitness, if_neg hlen]
  exact fitnessFromAccum_bounds _

/-- Witness for the amended claim C2 on a concrete one-step trajectory. -/
theorem claim_C2_fitness_bounds_witness :
    ([defaultTrajectoryStep] : List TrajectoryStep) ≠ [] ∧
      (0 < calculateFitness [defaultTrajectoryStep] DEFAULT_PARAMETERS ∧
        calculateFitness [defaultTrajectoryStep] DEFAULT_PARAMETERS ≤
          DYNAMISM_BONUS_MULTIPLIER) :=
  ⟨by simp, claim_C2_fitness_bounds _ _ (by simp)⟩

/-- Counterexample to claim C2 as stated: at the empty ground-truth
trajectory the fitness of the default parameters is 0, not positive. -/
theorem claim_C2_counterexample :
    calculateFitness [] DEFAULT_PARAMETERS = 0 ∧
      ¬ (0 < calculateFitness [] DEFAULT_PARAMETERS) := by
  constructor <;> simp [calculateFitness]

/-- Claim C8: calculateFitness ignores the gamma field of the candidate
because it forces gamma to 1 internally; parameter sets equal except for
gamma yield equal fitness against every trajectory. -/
theorem claim_C8_gamma_independent (traj : List TrajectoryStep)
    (p1 p2 : SimulationParameters) (hself : p1.w_self = p2.w_self)
    (hneigh : p1.w_neighbor = p2.w_neighbor) :
    calculateFitness traj p1 = calculateFitness traj p2 := by
  have hstep : fitnessStep traj p1 = fitnessStep traj p2 := by
    funext s n
    simp only [fitnessStep, hself, hneigh]
  simp only [calculateFitness, hstep]

/-- Witness for claim C8: default parameters with gamma 1 and gamma 0. -/
theorem claim_C8_gamma_independent_witness :
    calculateFitness [] DEFAULT_PARAMETERS =
      calculateFitness [] { DEFAULT_PARAMETERS with gamma := 0 } :=
  claim_C8_gamma_independent [] _ _ rfl rfl

/-- For a nonnegative integer, toNat commutes with adding a natural and
reducing modulo a natural. -/
theorem toNat_add_emod (a : ℤ) (ha : 0 ≤ a) (d H : ℕ) :
    ((a + d) % H).toNat = (a.toNat + d) % H := by
  obtain ⟨n, rfl⟩ := Int.eq_ofNat_of_zero_le ha
  rw [show ((n : ℤ) + d) % H = (((n + d) % H : ℕ) : ℤ) by push_cast; ring]
  exact Int.toNat_natCast _

/-- The key index identity behind toroidal translation invariance:
reducing a pre-shifted coordinate equals shifting the reduced coordinate. -/
theorem torus_shift {H : ℕ} (hH : 0 < H) (y d : ℕ) (i : ℤ) :
    torus H ((((y + d) % H : ℕ) : ℤ) + i) = (torus H ((y : ℤ) + i) + d) % H := by
  have hH0 : ((H : ℤ)) ≠ 0 := by exact_mod_cast hH.ne'
  have hA : (0 : ℤ) ≤ ((y : ℤ) + i + H) % H := Int.emod_nonneg _ hH0
  have key : ((((y + d) % H : ℕ) : ℤ) + i + H) % H
      = ((((y : ℤ) + i + H) % H) + d) % H := by
    push_cast
    rw [show ((y : ℤ) + (d : ℤ)) % (H : ℤ) + i + (H : ℤ)
        = ((y : ℤ) + (d : ℤ)) % (H : ℤ) + (i + (H : ℤ)) by ring]
    rw [Int.emod_add_emod, Int.emod_add_emod]
    ring_nf
  unfold torus
  rw [key, toNat_add_emod _ hA]

/-- The summed neighbor vector commutes with toroidal translation. -/
theorem sumNeighborStates_translate {H W : ℕ} (hH : 0 < H) (hW : 0 < W)
    (g : GridFn) (dy dx y x : ℕ) :
    sumNeighborStates H W (translateGrid H W dy dx g) y x =
      sumNeighborStates H W g ((y + dy) % H) ((x + dx) % W) := by
  simp only [sumNeighborStates, neighborOffsets, List.foldl_cons, List.foldl_nil,
    translateGrid]
  rw [torus_shift hH y dy (-1), torus_shift hH y dy 0, torus_shift hH y dy 1,
    torus_shift hW x dx (-1), torus_shift hW x dx 0, torus_shift hW x dx 1]

/-- The coherent evolution of one cell commutes with toroidal translation. -/
theorem coherentlyEvolvedCell_translate {H W : ℕ} (hH : 0 < H) (hW : 0 < W)
    (g : GridFn) (params : SimulationParameters) (dy dx y x : ℕ) :
    coherentlyEvolvedCell H W (translateGrid H W dy dx g) params y x =
      coherentlyEvolvedCell H W g params ((y + dy) % H) ((x + dx) % W) := by
  unfold coherentlyEvolvedCell
  rw [sumNeighborStates_translate hH hW g dy dx y x]
  rfl

/-- Claim C4: performQuantumStep commutes with toroidal translation of the
grid by any offset (dy, dx). -/
theorem claim_C4_shift_invariance (H W : ℕ) (g : GridFn)
    (params : SimulationParameters) (dy dx : ℕ) (hH : 1 ≤ H) (hW : 1 ≤ W) :
    performQuantumStep H W (translateGrid H W dy dx g) params =
      translateGrid H W dy dx (performQuantumStep H W g params) := by
  funext y x
  show decohereCell params.gamma
      (coherentlyEvolvedCell H W (translateGrid H W dy dx g) params y x)
    = decohereCell params.gamma
      (coherentlyEvolvedCell H W g params ((y + dy) % H) ((x + dx) % W))
  rw [coherentlyEvolvedCell_translate hH hW g params dy dx y x]

/-- Witness for claim C4 on a concrete 1 x 1 grid with zero offset. -/
theorem claim_C4_shift_invariance_witness :
    (1 ≤ 1) ∧
      performQuantumStep 1 1
          (translateGrid 1 1 0 0 (fun _ _ => (⟨⟨1, 0⟩, ⟨0, 0⟩⟩ : QubitState)))
          DEFAULT_PARAMETERS =
        translateGrid 1 1 0 0
          (performQuantumStep 1 1 (fun _ _ => (⟨⟨1, 0⟩, ⟨0, 0⟩⟩ : QubitState))
            DEFAULT_PARAMETERS) :=
  ⟨le_refl 1,
    claim_C4_shift_invariance 1 1 _ DEFAULT_PARAMETERS 0 0 (le_refl 1) (le_refl 1)⟩

/-- The classical step engine commutes with toroidal translation. -/
theorem performGOLStep_translate {H W : ℕ} (hH : 0 < H) (hW : 0 < W)
    (grid : ClassicalGridFn) (dy dx : ℕ) :
    performGOLStep H W (translateGrid H W dy dx grid) =
      translateGrid H W dy dx (performGOLStep H W grid) := by
  funext y x
  show (let neighborCount := neighborOffsets.foldl
          (fun acc ij => acc + (translateGrid H W dy dx grid)
            (torus H ((y : ℤ) + ij.1)) (torus W ((x : ℤ) + ij.2))) 0
        let cell := translateGrid H W dy dx grid y x
        if cell = 1 ∧ (neighborCount = 2 ∨ neighborCount = 3) then 1
        else if cell = 0 ∧ neighborCount = 3 then 1
        else 0)
    = performGOLStep H W grid ((y + dy) % H) ((x + dx) % W)
  simp only [performGOLStep, neighborOffsets, List.foldl_cons, List.foldl_nil,
    translateGrid]
  simp only [torus_shift hH y dy, torus_shift hW x dx]

set_option maxRecDepth 100000 in
set_option maxHeartbeats 4000000 in
/-- Two classical steps return the canonical horizontal blinker to itself. -/
theorem blinker_base_period_two : ∀ y x : Fin 32,
    performGOLStep 32 32 (performGOLStep 32 32 blinkerGrid) (y : ℕ) (x : ℕ)
      = blinkerGrid (y : ℕ) (x : ℕ) := by decide

/-- Claim C7: on the 32 x 32 torus, every grid that is all zero except a
single horizontal blinker (every such grid is a toroidal translation of
blinkerGrid) returns exactly to itself after two applications of
performGOLStep. -/
theorem claim_C7_blinker_period_two (dy dx : ℕ) (y x : Fin 32) :
    performGOLStep 32 32
        (performGOLStep 32 32 (translateGrid 32 32 dy dx blinkerGrid))
        (y : ℕ) (x : ℕ)
      = translateGrid 32 32 dy dx blinkerGrid (y : ℕ) (x : ℕ) := by
  rw [performGOLStep_translate (by norm_num) (by norm_num) blinkerGrid dy dx,
    performGOLStep_translate (by norm_num) (by norm_num)]
  show performGOLStep 32 32 (performGOLStep 32 32 blinkerGrid)
      (((y : ℕ) + dy) % 32) (((x : ℕ) + dx) % 32)
    = blinkerGrid (((y : ℕ) + dy) % 32) (((x : ℕ) + dx) % 32)
  exact blinker_base_period_two
    ⟨_, Nat.mod_lt _ (by norm_num)⟩ ⟨_, Nat.mod_lt _ (by norm_num)⟩

/-- The population test of the source (total count equals zero) holds
exactly when every cell of the grid is zero. -/
theorem gridPopulation_eq_zero_iff (g : ClassicalGridFn) :
    gridPopulation g = 0 ↔ ∀ y x : Fin GRID_SIZE, g y x = 0 := by
  unfold gridPopulation
  rw [Finset.sum_eq_zero_iff]
  constructor
  · intro h y x
    have hy := h (y : ℕ) (Finset.mem_range.mpr y.isLt)
    rw [Finset.sum_eq_zero_iff] at hy
    exact hy (x : ℕ) (Finset.mem_range.mpr x.isLt)
  · intro h y hy
    rw [Finset.sum_eq_zero_iff]
    intro x hx
    exact h ⟨y, Finset.mem_range.mp hy⟩ ⟨x, Finset.mem_range.mp hx⟩

/-- Claim C6: when the target register is all zero, advanceCycle returns
true, the new system register is the classical step of the old system and
the new target register is the old system register; when the target is not
all zero, advanceCycle returns false and leaves both registers unchanged. -/
theorem claim_C6_advance_cycle (st : ReversibleState) :
    ((∀ y x : Fin GRID_SIZE, st.targetGrid y x = 0) →
      (advanceCycle st).1 = true ∧
      (∀ y x : Fin GRID_SIZE, (advanceCycle st).2.systemGrid (y : ℕ) (x : ℕ) =
        performGOLStep GRID_SIZE GRID_SIZE st.systemGrid (y : ℕ) (x : ℕ)) ∧
      (advanceCycle st).2.targetGrid = st.systemGrid) ∧
    ((¬ ∀ y x : Fin GRID_SIZE, st.targetGrid y x = 0) →
      (advanceCycle st).1 = false ∧ (advanceCycle st).2 = st) := by
  constructor
  · intro hclean
    have hpop : gridPopulation st.targetGrid = 0 :=
      (gridPopulation_eq_zero_iff st.targetGrid).mpr hclean
    simp only [advanceCycle, if_pos hpop]
    refine ⟨by trivial, ?_, by trivial⟩
    intro y x
    show st.targetGrid (y : ℕ) (x : ℕ) ^^^
        performGOLStep GRID_SIZE GRID_SIZE st.systemGrid (y : ℕ) (x : ℕ) = _
    rw [hclean y x]
    exact Nat.zero_xor _
  · intro hnc
    have hpop : ¬ gridPopulation st.targetGrid = 0 :=
      fun h => hnc ((gridPopulation_eq_zero_iff st.targetGrid).mp h)
    simp only [advanceCycle, if_neg hpop]
    exact ⟨by trivial, by trivial⟩

/-- Witness for claim C6: advancing from the all-zero registers succeeds. -/
theorem claim_C6_advance_cycle_witness :
    (advanceCycle ⟨fun _ _ => 0, fun _ _ => 0⟩).1 = true :=
  ((claim_C6_advance_cycle ⟨fun _ _ => 0, fun _ _ => 0⟩).1 (fun _ _ => rfl)).1

/-- Every fitness value is nonnegative. -/
theorem calculateFitness_nonneg (traj : List TrajectoryStep)
    (params : SimulationParameters) : 0 ≤ calculateFitness traj params := by
  simp only [calculateFitness]
  split_ifs with h
  · exact le_refl 0
  · exact (fitnessFromAccum_bounds _).1.le

/-- The offspring loop never empties a nonempty population. -/
theorem buildPopulation_ne_nil (fuel : ℕ)
    (fitnessScores : List (SimulationParameters × ℝ)) (rand : RandomStream)
    (acc : List SimulationParameters) (k : ℕ) (h : acc ≠ []) :
    buildPopulation fuel fitnessScores rand acc k ≠ [] := by
  induction fuel generalizing acc k with
  | zero => simpa [buildPopulation] using h
  | succ n ih =>
    simp only [buildPopulation]
    by_cases hlen : acc.length < POPULATION_SIZE
    · rw [if_pos hlen]
      exact ih _ _ (by simp)
    · rw [if_neg hlen]
      exact h

/-- One completed runGeneration call increments the generation counter by
exactly 1, never decreases the reported best fitness, and preserves the
invariants established by initialization (nonempty population; best
fitness 0 while no best individual is recorded). -/
theorem runGeneration_progress (traj : List TrajectoryStep)
    (rand : RandomStream) (st : GAState) (hpop : st.population ≠ [])
    (hinv : st.bestParams = none → st.bestFitness = 0) :
    (runGeneration traj rand st).generation = st.generation + 1 ∧
    st.bestFitness ≤ (runGeneration traj rand st).bestFitness ∧
    (runGeneration traj rand st).population ≠ [] ∧
    ((runGeneration traj rand st).bestParams = none →
      (runGeneration traj rand st).bestFitness = 0) := by
  obtain ⟨gen, bestFit, bestPar, pop, srch⟩ := st
  simp only at hpop hinv
  have hperm := List.mergeSort_perm (pop.map (fun p => (p, calculateFitness traj p)))
    (fun a b => decide (b.2 ≤ a.2))
  have hne : (pop.map (fun p => (p, calculateFitness traj p))).mergeSort
      (fun a b => decide (b.2 ≤ a.2)) ≠ [] := by
    intro hnil
    have hlen := hperm.length_eq
    rw [hnil] at hlen
    simp only [List.length_nil, List.length_map] at hlen
    exact hpop (List.length_eq_zero.mp hlen.symm)
  obtain ⟨b, t, hbt⟩ := List.exists_cons_of_ne_nil hne
  have hmem : b ∈ pop.map (fun p => (p, calculateFitness traj p)) := by
    rw [← hperm.mem_iff, hbt]
    exact List.mem_cons_self _ _
  have hb0 : 0 ≤ b.2 := by
    obtain ⟨p, hp, rfl⟩ := List.mem_map.mp hmem
    exact calculateFitness_nonneg traj p
  have heps : (0 : ℝ) < 1e-9 := by norm_num
  cases bestPar with
  | none =>
    simp only [runGeneration, hbt, List.headD_cons]
    split_ifs with h1 h2 h2 <;>
      refine ⟨rfl, ?_, ?_, ?_⟩ <;>
        simp_all <;>
          first
            | linarith
            | (exact buildPopulation_ne_nil _ _ _ _ _ (by simp [ELITISM_COUNT]))
  | some bp =>
    simp only [runGeneration, hbt, List.headD_cons]
    split_ifs with h1 h2 h2 <;>
      refine ⟨rfl, ?_, ?_, ?_⟩ <;>
        simp_all <;>
          first
            | linarith
            | (exact buildPopulation_ne_nil _ _ _ _ _ (by simp [ELITISM_COUNT]))

/-- Claim C9: along every run of the genetic search step relation from an
initialized state (nonempty population, no recorded best individual, best
fitness 0), each completed runGeneration call increases the generation
counter by exactly 1, and the reported best fitness is monotonically
non-decreasing across generations. -/
theorem claim_C9_generation_progress (traj : List TrajectoryStep)
    (rands : ℕ → RandomStream) (init : GAState) (hpop : init.population ≠ [])
    (hinv : init.bestParams = none → init.bestFitness = 0) (n : ℕ) :
    (gaRun traj rands init (n + 1)).generation
        = (gaRun traj rands init n).generation + 1 ∧
      (gaRun traj rands init n).bestFitness
        ≤ (gaRun traj rands init (n + 1)).bestFitness := by
  have hstate : ∀ m, (gaRun traj rands init m).population ≠ [] ∧
      ((gaRun traj rands init m).bestParams = none →
        (gaRun traj rands init m).bestFitness = 0) := by
    intro m
    induction m with
    | zero => exact ⟨hpop, hinv⟩
    | succ k ih =>
      have h := runGeneration_progress traj (rands k) (gaRun traj rands init k)
        ih.1 ih.2
      exact ⟨h.2.2.1, h.2.2.2⟩
  have h := runGeneration_progress traj (rands n) (gaRun traj rands init n)
    (hstate n).1 (hstate n).2
  exact ⟨h.1, h.2.1⟩

/-- Witness for claim C9: the first generation from a freshly initialized
state with a singleton population. -/
theorem claim_C9_generation_progress_witness :
    (([DEFAULT_PARAMETERS] : List SimulationParameters) ≠ []) ∧
      (gaRun [] (fun _ _ => 0) ⟨0, 0, none, [DEFAULT_PARAMETERS], true⟩ 1).generation
        = (gaRun [] (fun _ _ => 0) ⟨0, 0, none, [DEFAULT_PARAMETERS], true⟩ 0).generation
            + 1 :=
  ⟨by simp,
    (claim_C9_generation_progress [] (fun _ _ => 0)
      ⟨0, 0, none, [DEFAULT_PARAMETERS], true⟩ (by simp) (fun _ => rfl) 0).1⟩

end QCA
